import Mathlib

/-!
Verification of the access-controlled query layer of a NestJS/PostgreSQL
backend (resource services for Users, Roles, Posts and Projects).

The TypeScript services are shallowly embedded as pure Lean functions over
explicit list-based stores.  Each Prisma call is modelled by its effect on
the store: `findUnique`/`findFirst` become `List.find?`, `create` appends,
`update` maps, `delete` filters, and thrown `HttpException`s become
`Except.error` values carrying the error class.  A service method that
throws before reaching its mutating Prisma call is modelled as returning an
error and no successor store, which mirrors the original control flow
exactly (the store is only written on the success path).

The `PrismaService` of the repository is a plain `PrismaClient` without a
global `omit` configuration: the auth service reads `user.hash` from an
uncustomised `findUnique` (a global omit would break password login), and
the services that do strip the digest pass a local `omit: { hash: true }`
at each call site.  Result shaping therefore follows stock Prisma
semantics: an explicit `select` returns exactly the selected keys, and
otherwise all scalar columns are returned minus any locally omitted ones.
-/

namespace NestBackend

/-- Error taxonomy of the HTTP layer: `NotFoundException` (404),
`ForbiddenException` (403), `BadRequestException` (400, used both for
validation failures and uniqueness conflicts) and
`UnauthorizedException` (401). -/
inductive ApiError where
| notFound (msg : String)
| forbidden (msg : String)
| badRequest (msg : String)
| unauthorized (msg : String)
deriving Repr, DecidableEq

/-- True when the result is a success. -/
def isOkE {α : Type} : Except ApiError α → Bool
| Except.ok _ => true
| Except.error _ => false

/-- True when the result is a `NotFoundException` (404). -/
def isNotFoundE {α : Type} : Except ApiError α → Bool
| Except.error (ApiError.notFound _) => true
| _ => false

/-- True when the result is a `ForbiddenException` (403). -/
def isForbiddenE {α : Type} : Except ApiError α → Bool
| Except.error (ApiError.forbidden _) => true
| _ => false

/-- True when the result is a `BadRequestException` (400). -/
def isBadRequestE {α : Type} : Except ApiError α → Bool
| Except.error (ApiError.badRequest _) => true
| _ => false

/-- True when the result is an `UnauthorizedException` (401). -/
def isUnauthorizedE {α : Type} : Except ApiError α → Bool
| Except.error (ApiError.unauthorized _) => true
| _ => false

/-- A `Role` row: `{ id, name (globally unique), description? }`. -/
structure Role where
id : Nat
name : String
description : Option String := none
deriving Repr, DecidableEq

/-- The authenticated principal attached to a request (`ReqUser` in
`shared/interfaces/request.interface.ts`): the account id plus the account
roles, resolved by the JWT strategy. -/
structure ReqUser where
id : Nat
roles : List Role
deriving Repr, DecidableEq

/-- `user.roles.some((role) => role.name === 'ADMIN')`, the admin test
repeated across the services. -/
def isUserAdmin (u : ReqUser) : Bool :=
u.roles.any (fun r => r.name == "ADMIN")

/-- A `Post` row.  `createdAt` timestamps are modelled as naturals. -/
structure Post where
id : Nat
title : String
slug : String
content : String
published : Bool
authorId : Nat
createdAt : Nat := 0
deriving Repr, DecidableEq

/-- `prisma.post.findUnique({ where: { id } })`. -/
def postFindUnique (posts : List Post) (i : Nat) : Option Post :=
posts.find? (fun p => p.id == i)

/-- `prisma.post.findFirst({ where: { slug, authorId } })`. -/
def postFindFirstBySlugAuthor (posts : List Post) (slug : String) (authorId : Nat) : Option Post :=
posts.find? (fun p => p.slug == slug && p.authorId == authorId)

/-- `CreatePostDto`: `title`, `slug`, `content` mandatory, `published`
optional. -/
structure CreatePostDto where
title : String
slug : String
content : String
published : Option Bool := none
deriving Repr, DecidableEq

/-- `UpdatePostDto extends PartialType(CreatePostDto)`: every field
optional; an absent field is left unchanged by the update. -/
structure UpdatePostDto where
title : Option String := none
slug : Option String := none
content : Option String := none
published : Option Bool := none
deriving Repr, DecidableEq

namespace PostsService

/-- `PostsService.create(authorId, payload)`: reject with 400 when a post
with the same `(slug, authorId)` pair exists, else insert the new row. -/
def create (posts : List Post) (newId now authorId : Nat) (payload : CreatePostDto) :
    Except ApiError (List Post × Post) :=
match postFindFirstBySlugAuthor posts payload.slug authorId with
| some _ =>
    Except.error (ApiError.badRequest
      ("A Post with slug " ++ payload.slug ++ " already exists for this user."))
| none =>
    let p : Post :=
      { id := newId, title := payload.title, slug := payload.slug,
        content := payload.content, published := payload.published.getD false,
        authorId := authorId, createdAt := now }
    Except.ok (posts ++ [p], p)

/-- The Prisma `update` data object `{ ...rest, slug: slug ?? entity.slug }`:
fields present in the payload overwrite, absent fields keep the stored
value. -/
def applyUpdate (entity : Post) (payload : UpdatePostDto) : Post :=
{ entity with
    title := payload.title.getD entity.title
    content := payload.content.getD entity.content
    published := payload.published.getD entity.published
    slug := payload.slug.getD entity.slug }

/-- Row replacement performed by `prisma.post.update({ where: { id } })`. -/
def replacePost (posts : List Post) (p : Post) : List Post :=
posts.map (fun q => if q.id == p.id then p else q)

/-- The guard `if (slug && slug !== entity.slug)` followed by the
conflicting-slug lookup.  The DTO enforces a minimum slug length, so a
present slug is always truthy. -/
def slugConflict (posts : List Post) (entity : Post) (slug : Option String) : Bool :=
match slug with
| some s => s != entity.slug && (postFindFirstBySlugAuthor posts s entity.authorId).isSome
| none => false

/-- `PostsService.updateById(id, authorId, payload)`: 404 when the row is
missing, 403 when the caller is not the author, 400 when changing the slug
to one that already exists for the author, otherwise update. -/
def updateById (posts : List Post) (i authorId : Nat) (payload : UpdatePostDto) :
    Except ApiError (List Post × Post) :=
match postFindUnique posts i with
| none => Except.error (ApiError.notFound ("Post with ID " ++ toString i ++ " not found"))
| some entity =>
    if entity.authorId != authorId then
      Except.error (ApiError.forbidden "You do not have permission to update this Post.")
    else if slugConflict posts entity payload.slug then
      Except.error (ApiError.badRequest
        ("A Post with slug " ++ (payload.slug.getD entity.slug) ++
          " already exists for this user."))
    else
      let p := applyUpdate entity payload
      Except.ok (replacePost posts p, p)

/-- `PostsService.deleteById(id, user)`: 404 when missing, 403 when the
caller is neither the author nor an ADMIN, otherwise delete. -/
def deleteById (posts : List Post) (i : Nat) (user : ReqUser) :
    Except ApiError (List Post × Post) :=
match postFindUnique posts i with
| none => Except.error (ApiError.notFound ("Post with ID " ++ toString i ++ " not found"))
| some entity =>
    if entity.authorId != user.id && !(isUserAdmin user) then
      Except.error (ApiError.forbidden "You do not have permission to delete this Post")
    else
      Except.ok (posts.filter (fun p => p.id != i), entity)

/-- `PostsService.checkSlug(authorId, query)`: availability of a slug for
the given author. -/
def checkSlug (posts : List Post) (authorId : Nat) (slug : String) : Bool :=
(postFindFirstBySlugAuthor posts slug authorId).isNone

end PostsService

/-- A `Project` row.  The stored `techStack` column is modelled as an
`Option` so that the null-coalescing chain `techStack ?? entity.techStack
?? []` of the service keeps its meaning, and the never-null claim is a
real statement about the store. -/
structure Project where
id : Nat
title : String
slug : String
description : Option String := none
repoUrl : Option String := none
demoUrl : Option String := none
techStack : Option (List String) := none
featured : Bool := false
userId : Nat
createdAt : Nat := 0
deriving Repr, DecidableEq

/-- `prisma.project.findUnique({ where: { id } })`. -/
def projectFindUnique (projects : List Project) (i : Nat) : Option Project :=
projects.find? (fun p => p.id == i)

/-- `prisma.project.findFirst({ where: { slug, userId } })`. -/
def projectFindFirstBySlugUser (projects : List Project) (slug : String) (userId : Nat) :
    Option Project :=
projects.find? (fun p => p.slug == slug && p.userId == userId)

/-- `CreateProjectDto`: `title` and `slug` mandatory, everything else
optional. -/
structure CreateProjectDto where
title : String
slug : String
description : Option String := none
repoUrl : Option String := none
demoUrl : Option String := none
techStack : Option (List String) := none
featured : Option Bool := none
deriving Repr, DecidableEq

/-- `UpdateProjectDto extends PartialType(CreateProjectDto)`. -/
structure UpdateProjectDto where
title : Option String := none
slug : Option String := none
description : Option String := none
repoUrl : Option String := none
demoUrl : Option String := none
techStack : Option (List String) := none
featured : Option Bool := none
deriving Repr, DecidableEq

namespace ProjectsService

/-- `ProjectsService.create(userId, payload)`: reject with 400 when a
project with the same `(slug, userId)` pair exists, else insert with
`techStack: techStack ?? []`. -/
def create (projects : List Project) (newId now userId : Nat) (payload : CreateProjectDto) :
    Except ApiError (List Project × Project) :=
match projectFindFirstBySlugUser projects payload.slug userId with
| some _ =>
    Except.error (ApiError.badRequest
      ("A project with slug " ++ payload.slug ++ " already exists for this user."))
| none =>
    let p : Project :=
      { id := newId, title := payload.title, slug := payload.slug,
        description := payload.description, repoUrl := payload.repoUrl,
        demoUrl := payload.demoUrl,
        techStack := some (payload.techStack.getD []),
        featured := payload.featured.getD false,
        userId := userId, createdAt := now }
    Except.ok (projects ++ [p], p)

/-- The Prisma `update` data object
`{ ...rest, slug: slug ?? entity.slug, techStack: techStack ??
entity.techStack ?? [] }`. -/
def applyUpdate (entity : Project) (payload : UpdateProjectDto) : Project :=
{ entity with
    title := payload.title.getD entity.title
    description := match payload.description with
      | some d => some d
      | none => entity.description
    repoUrl := match payload.repoUrl with
      | some r => some r
      | none => entity.repoUrl
    demoUrl := match payload.demoUrl with
      | some d => some d
      | none => entity.demoUrl
    featured := payload.featured.getD entity.featured
    slug := payload.slug.getD entity.slug
    techStack := some (payload.techStack.getD (entity.techStack.getD [])) }

/-- Row replacement performed by `prisma.project.update({ where: { id } })`. -/
def replaceProject (projects : List Project) (p : Project) : List Project :=
projects.map (fun q => if q.id == p.id then p else q)

/-- The guard `if (slug && slug !== entity.slug)` followed by the
conflicting-slug lookup against `entity.userId`. -/
def slugConflict (projects : List Project) (entity : Project) (slug : Option String) : Bool :=
match slug with
| some s => s != entity.slug && (projectFindFirstBySlugUser projects s entity.userId).isSome
| none => false

/-- `ProjectsService.updateById(id, userId, payload)`: 404 when the row is
missing, 403 when the caller is not the owner, 400 on a slug conflict,
otherwise update. -/
def updateById (projects : List Project) (i userId : Nat) (payload : UpdateProjectDto) :
    Except ApiError (List Project × Project) :=
match projectFindUnique projects i with
| none => Except.error (ApiError.notFound ("Project with ID " ++ toString i ++ " not found"))
| some entity =>
    if entity.userId != userId then
      Except.error (ApiError.forbidden "You do not have permission to update this Project.")
    else if slugConflict projects entity payload.slug then
      Except.error (ApiError.badRequest
        ("A project with slug " ++ (payload.slug.getD entity.slug) ++
          " already exists for this user."))
    else
      let p := applyUpdate entity payload
      Except.ok (replaceProject projects p, p)

/-- `ProjectsService.deleteById(id, user)`: 404 when missing, 403 when the
caller is neither the owner nor an ADMIN, otherwise delete. -/
def deleteById (projects : List Project) (i : Nat) (user : ReqUser) :
    Except ApiError (List Project × Project) :=
match projectFindUnique projects i with
| none => Except.error (ApiError.notFound ("Project with ID " ++ toString i ++ " not found"))
| some entity =>
    if entity.userId != user.id && !(isUserAdmin user) then
      Except.error (ApiError.forbidden "You do not have permission to delete this Project")
    else
      Except.ok (projects.filter (fun p => p.id != i), entity)

/-- `ProjectsService.checkSlug(userId, query)`. -/
def checkSlug (projects : List Project) (userId : Nat) (slug : String) : Bool :=
(projectFindFirstBySlugUser projects slug userId).isNone

end ProjectsService

/-- A `User` row (an Account).  `hash` is the bcrypt password digest.
`roleIds` models the `_RoleToUser` join table entries of the account, as
returned by `include: { roles: true }`. -/
structure User where
id : Nat
firstName : String
lastName : Option String := none
username : String
email : String
hash : String
isActive : Bool := true
roleIds : List Nat := []
createdAt : Nat := 0
deriving Repr, DecidableEq

/-- `prisma.user.findUnique({ where: { id } })`. -/
def userFindUnique (users : List User) (i : Nat) : Option User :=
users.find? (fun u => u.id == i)

/-- `prisma.role.findUnique({ where: { id } })`. -/
def roleFindUnique (roles : List Role) (i : Nat) : Option Role :=
roles.find? (fun r => r.id == i)

/-- `UpdateUserDto` (a pick of `firstName`, `lastName`, `email`,
`username` from the create DTO); Prisma leaves absent keys unchanged. -/
structure UpdateUserDto where
firstName : Option String := none
lastName : Option String := none
email : Option String := none
username : Option String := none
deriving Repr, DecidableEq

/-- `UserRoleDto`: the pair of ids for role assignment and removal. -/
structure UserRoleDto where
userId : Nat
roleId : Nat
deriving Repr, DecidableEq

/-- Scalar columns of the Prisma `User` model, in declaration order. -/
def userScalarFields : List String :=
["id", "firstName", "lastName", "username", "email", "hash", "isActive",
  "createdAt", "updatedAt"]

namespace UsersService

/-- The `data: payload` object of `updateById`: present keys overwrite,
absent keys keep the stored value; `hash` is never part of this DTO. -/
def applyUpdate (entity : User) (payload : UpdateUserDto) : User :=
{ entity with
    firstName := payload.firstName.getD entity.firstName
    lastName := match payload.lastName with
      | some l => some l
      | none => entity.lastName
    email := payload.email.getD entity.email
    username := payload.username.getD entity.username }

/-- Row replacement performed by `prisma.user.update({ where: { id } })`. -/
def replaceUser (users : List User) (u : User) : List User :=
users.map (fun x => if x.id == u.id then u else x)

/-- `UsersService.updateById(reqUser, id, payload)`: 404 when the row is
missing; 403 when the caller is neither the target account nor an ADMIN
(`if (reqUser.id !== entity.id && !isUserAdmin)`); otherwise update. -/
def updateById (users : List User) (reqUser : ReqUser) (i : Nat) (payload : UpdateUserDto) :
    Except ApiError (List User × User) :=
match userFindUnique users i with
| none => Except.error (ApiError.notFound ("User with ID " ++ toString i ++ " not found"))
| some entity =>
    if reqUser.id != entity.id && !(isUserAdmin reqUser) then
      Except.error (ApiError.forbidden "You do not have permission to update this User")
    else
      let u := applyUpdate entity payload
      Except.ok (replaceUser users u, u)

/-- `UsersService.deleteById(id)`: 404 when missing, otherwise delete.  No
ownership or role check happens in the service; the controller guard is
the only gate. -/
def deleteById (users : List User) (i : Nat) :
    Except ApiError (List User × User) :=
match userFindUnique users i with
| none => Except.error (ApiError.notFound ("User with ID " ++ toString i ++ " not found"))
| some entity =>
    Except.ok (users.filter (fun u => u.id != i), entity)

/-- `UsersService.assignRole(payload)`: 404 when the user is missing, 404
when the role is missing, 400 when the user already holds the role,
otherwise connect exactly that role. -/
def assignRole (users : List User) (roles : List Role) (payload : UserRoleDto) :
    Except ApiError (List User) :=
match userFindUnique users payload.userId with
| none =>
    Except.error (ApiError.notFound
      ("User with ID " ++ toString payload.userId ++ " not found"))
| some user =>
    match roleFindUnique roles payload.roleId with
    | none =>
        Except.error (ApiError.notFound
          ("Role with ID " ++ toString payload.roleId ++ " not found"))
    | some role =>
        if user.roleIds.contains payload.roleId then
          Except.error (ApiError.badRequest ("User already has role " ++ role.name))
        else
          Except.ok (users.map (fun u =>
            if u.id == payload.userId then
              { u with roleIds := u.roleIds ++ [payload.roleId] }
            else u))

/-- `UsersService.removeRole(payload)`: 404 when the user is missing, 404
when the role is missing, 400 when the user does not hold the role,
otherwise disconnect exactly that role. -/
def removeRole (users : List User) (roles : List Role) (payload : UserRoleDto) :
    Except ApiError (List User) :=
match userFindUnique users payload.userId with
| none =>
    Except.error (ApiError.notFound
      ("User with ID " ++ toString payload.userId ++ " not found"))
| some user =>
    match roleFindUnique roles payload.roleId with
    | none =>
        Except.error (ApiError.notFound
          ("Role with ID " ++ toString payload.roleId ++ " not found"))
    | some role =>
        if !(user.roleIds.contains payload.roleId) then
          Except.error (ApiError.badRequest ("User does not have role " ++ role.name))
        else
          Except.ok (users.map (fun u =>
            if u.id == payload.userId then
              { u with roleIds := u.roleIds.filter (fun j => j != payload.roleId) }
            else u))

end UsersService

/-- `RolesGuard.canActivate`: re-reads the request user from the store
with `include: { roles: true }` and requires at least one of the role
names demanded by the `@Roles(...)` decorator; a missing user or no
matching role yields `false`, which the framework surfaces as a 403
`ForbiddenException`. -/
def rolesGuardAllows (users : List User) (roles : List Role) (principalId : Nat)
    (required : List String) : Bool :=
match userFindUnique users principalId with
| none => false
| some dbUser =>
    (roles.filter (fun r => dbUser.roleIds.contains r.id)).any
      (fun r => required.contains r.name)

namespace UsersController

/-- `UsersController.deleteById`: the route is decorated with
`@UseGuards(RolesGuard)` and `@Roles('ADMIN')`, then calls
`UsersService.deleteById(id)`.  The guard is the only authorization
check; the target owner is never compared with the caller. -/
def deleteById (users : List User) (roles : List Role) (principal : ReqUser) (i : Nat) :
    Except ApiError (List User × User) :=
if !(rolesGuardAllows users roles principal.id ["ADMIN"]) then
  Except.error (ApiError.forbidden "Forbidden resource")
else
  UsersService.deleteById users i

end UsersController

namespace RolesService

/-- `RolesService.create(payload)`: unconditional insert (the global
uniqueness of `name` is the storage constraint, not an application
check). -/
def create (roles : List Role) (newId : Nat) (name : String) (description : Option String) :
    Except ApiError (List Role × Role) :=
let r : Role := { id := newId, name := name, description := description }
Except.ok (roles ++ [r], r)

/-- `RolesService.deleteById(id)` (current variant): 404 when missing,
403 whenever the target role is named ADMIN — for every caller, since the
method does not even receive the principal — otherwise delete. -/
def deleteById (roles : List Role) (i : Nat) :
    Except ApiError (List Role × Role) :=
match roleFindUnique roles i with
| none => Except.error (ApiError.notFound ("Role with ID " ++ toString i ++ " not found"))
| some entity =>
    if entity.name == "ADMIN" then
      Except.error (ApiError.forbidden "You do not have permission to delete this Role")
    else
      Except.ok (roles.filter (fun r => r.id != i), entity)

/-- `RolesService.deleteById(id, user)` (earlier variant): 404 when
missing, then `if (!isUserAdmin || entity.name === 'ADMIN')` raise 403 —
so the ADMIN role is denied even to an ADMIN caller — otherwise delete. -/
def deleteByIdWithUser (roles : List Role) (i : Nat) (user : ReqUser) :
    Except ApiError (List Role × Role) :=
match roleFindUnique roles i with
| none => Except.error (ApiError.notFound ("Role with ID " ++ toString i ++ " not found"))
| some entity =>
    if !(isUserAdmin user) || entity.name == "ADMIN" then
      Except.error (ApiError.forbidden "You do not have permission to delete this Role")
    else
      Except.ok (roles.filter (fun r => r.id != i), entity)

end RolesService

/-- Case-insensitive prefix test on character lists. -/
def charsStartWith : List Char → List Char → Bool
| _, [] => true
| [], _ :: _ => false
| h :: hs, n :: ns => h == n && charsStartWith hs ns

/-- Case-insensitive substring scan on character lists. -/
def charsHaveSub (needle : List Char) : List Char → Bool
| [] => needle.isEmpty
| h :: t => charsStartWith (h :: t) needle || charsHaveSub needle t

/-- `{ contains: term, mode: 'insensitive' }`. -/
def containsInsensitive (hay needle : String) : Bool :=
charsHaveSub needle.toLower.data hay.toLower.data

/-- The validated `GetPostsDto`: list filters, exact filters, term filter,
inclusive date range, sort selection, pagination toggle and page
geometry.  `page` and `pageSize` carry the class-validator guarantee
`Min(1)` established by `validatePagination` below, with defaults 1 and
50. -/
structure GetPostsDto where
ids : Option (List Nat) := none
authorIds : Option (List Nat) := none
slug : Option String := none
published : Option Bool := none
term : Option String := none
createdAtFrom : Option Nat := none
createdAtTo : Option Nat := none
sortBy : String := "createdAt"
sortOrder : String := "desc"
withPagination : Bool := false
page : Nat := 1
pageSize : Nat := 50
includeAuthor : Bool := false
fieldList : Option (List String) := none
deriving Repr, DecidableEq

/-- The `where` object built by `PostsService.get`: each filter applies
only when its query key is truthy (`id?.length`, `authorId?.length`, a
non-empty `slug`/`term`, a present `published`, present date bounds). -/
def postsWhere (q : GetPostsDto) (p : Post) : Bool :=
(match q.ids with
  | some (a :: t) => (a :: t).contains p.id
  | _ => true) &&
(match q.authorIds with
  | some (a :: t) => (a :: t).contains p.authorId
  | _ => true) &&
(match q.slug with
  | some s => s.isEmpty || p.slug == s
  | none => true) &&
(match q.published with
  | some b => p.published == b
  | none => true) &&
(match q.term with
  | some t => t.isEmpty || containsInsensitive p.title t
  | none => true) &&
(match q.createdAtFrom with
  | some a => decide (a ≤ p.createdAt)
  | none => true) &&
(match q.createdAtTo with
  | some b => decide (p.createdAt ≤ b)
  | none => true)

/-- Insertion into a list sorted by `le`. -/
def insertSorted {α : Type} (le : α → α → Bool) (x : α) : List α → List α
| [] => [x]
| y :: t => if le x y then x :: y :: t else y :: insertSorted le x t

/-- Insertion sort modelling the `ORDER BY` of the store. -/
def sortByLe {α : Type} (le : α → α → Bool) : List α → List α
| [] => []
| x :: t => insertSorted le x (sortByLe le t)

/-- Ascending comparison for `orderBy: { [sortBy]: ... }`; the DTO only
admits the sortable fields, and `createdAt` is the default key. -/
def postSortLeAsc (sortKey : String) (a b : Post) : Bool :=
match sortKey with
| "id" => decide (a.id ≤ b.id)
| "title" => decide (a.title ≤ b.title)
| "published" => !a.published || b.published
| "authorId" => decide (a.authorId ≤ b.authorId)
| _ => decide (a.createdAt ≤ b.createdAt)

/-- The comparison actually used: `sortOrder` is `asc` or `desc`. -/
def postSortLe (q : GetPostsDto) (a b : Post) : Bool :=
if q.sortOrder == "asc" then postSortLeAsc q.sortBy a b else postSortLeAsc q.sortBy b a

/-- `Math.ceil(total / pageSize)` on naturals, for `pageSize ≥ 1`. -/
def ceilDiv (total pageSize : Nat) : Nat :=
(total + pageSize - 1) / pageSize

/-- The `{ total, page, pageSize, pageCount, items }` result shape. -/
structure PaginatedResponse (α : Type) where
total : Nat
page : Nat
pageSize : Nat
pageCount : Nat
items : List α
deriving Repr, DecidableEq

namespace PostsService

/-- `PostsService.get(query)`: build the `where` filter; with
`withPagination` run `findMany` with `skip: (page-1)*pageSize, take:
pageSize` in parallel with `count({ where })` and assemble the metadata
`pageCount = Math.ceil(total / pageSize)`; otherwise return the plain
ordered list. -/
def get (posts : List Post) (q : GetPostsDto) :
    (List Post) ⊕ (PaginatedResponse Post) :=
let filtered := posts.filter (postsWhere q)
let sorted := sortByLe (postSortLe q) filtered
if q.withPagination then
  let total := filtered.length
  Sum.inr
    { total := total, page := q.page, pageSize := q.pageSize,
      pageCount := ceilDiv total q.pageSize,
      items := (sorted.drop ((q.page - 1) * q.pageSize)).take q.pageSize }
else
  Sum.inl sorted

end PostsService

/-- The raw, not yet validated pagination query parameters as integers. -/
structure RawPagination where
page : Option Int := none
pageSize : Option Int := none
deriving Repr, DecidableEq

/-- One `@IsOptional() @IsInt() @Min(1)` field of the query DTOs: absent
values take the declared default; a present value below 1 is rejected by
the global `ValidationPipe` as a 400 before the service runs. -/
def validateMin1 (fieldName : String) (v : Option Int) (dflt : Nat) : Except ApiError Nat :=
match v with
| none => Except.ok dflt
| some n =>
    if n < 1 then
      Except.error (ApiError.badRequest (fieldName ++ " must not be less than 1"))
    else
      Except.ok n.toNat

/-- Validation of the `page`/`pageSize` pair with defaults 1 and 50. -/
def validatePagination (raw : RawPagination) : Except ApiError (Nat × Nat) := do
let p ← validateMin1 "page" raw.page 1
let ps ← validateMin1 "pageSize" raw.pageSize 50
Except.ok (p, ps)

/-- The `ALL_FIELDS` whitelist of `GetUsersDto.field`
(`Object.values(Prisma.UserScalarFieldEnum)`, which includes `hash`);
`@IsIn(ALL_FIELDS, { each: true })`. -/
def validUserFieldList (l : List String) : Bool :=
l.all (fun f => userScalarFields.contains f)

/-- Scalar keys of each object returned by `UsersService.get`, from its
select-and-include region: a non-empty `field` list becomes `select`
(returning exactly those keys); otherwise the query runs with a bare
`include` object and no `omit`, so every scalar column — `hash`
included — comes back. -/
def usersGetScalarKeys (q : Option (List String)) : List String :=
match q with
| some (f :: fs) => f :: fs
| _ => userScalarFields

/-- Scalar keys of the Account object nested by `ProjectsService.get`
when `includeUser` is set: the service passes `include.user = true` with
no `omit`, so all scalar columns of the user are returned. -/
def projectsIncludedUserScalarKeys (includeUser : Bool) : Option (List String) :=
if includeUser then some userScalarFields else none

/-- Scalar keys of the Account object nested by `PostsService.get` when
`includeAuthor` is set: the service passes
`include.author = { omit: { hash: true } }`. -/
def postsIncludedAuthorScalarKeys (includeAuthor : Bool) : Option (List String) :=
if includeAuthor then some (userScalarFields.filter (fun f => f != "hash")) else none

/-- Route metadata relevant to the public-route mechanism: the global
`JwtAuthGuard` installed in `main.ts` lets a request through without a
verified principal only when the handler carries the `@Public()`
decorator. -/
structure RouteMeta where
method : String
path : String
isPublic : Bool
deriving Repr, DecidableEq

/-- `GET /posts/check-slug`: no `@Public()` decorator on the handler. -/
def postsCheckSlugRoute : RouteMeta :=
{ method := "GET", path := "/posts/check-slug", isPublic := false }

/-- `GET /projects/check-slug`: no `@Public()` decorator on the handler. -/
def projectsCheckSlugRoute : RouteMeta :=
{ method := "GET", path := "/projects/check-slug", isPublic := false }

/-- `POST /users` (registration): decorated with `@Public()`. -/
def usersCreateRoute : RouteMeta :=
{ method := "POST", path := "/users", isPublic := true }

/-- `POST /auth/login`: decorated with `@Public()`. -/
def authLoginRoute : RouteMeta :=
{ method := "POST", path := "/auth/login", isPublic := true }

/-- The global guard: public routes pass unconditionally, all others need
an authenticated principal. -/
def jwtAuthGuardPasses (route : RouteMeta) (auth : Option ReqUser) : Bool :=
route.isPublic || auth.isSome

/-- The `GET /posts/check-slug` endpoint behind the global guard: the
handler reads `req.user.id` as the slug scope, so it only ever runs for
an authenticated principal; an unauthenticated request is rejected 401 by
the guard. -/
def postsCheckSlugEndpoint (posts : List Post) (auth : Option ReqUser) (slug : String) :
    Except ApiError Bool :=
if jwtAuthGuardPasses postsCheckSlugRoute auth then
  match auth with
  | some u => Except.ok (PostsService.checkSlug posts u.id slug)
  | none => Except.error (ApiError.unauthorized "Unauthorized")
else
  Except.error (ApiError.unauthorized "Unauthorized")

/-- The `GET /projects/check-slug` endpoint behind the global guard. -/
def projectsCheckSlugEndpoint (projects : List Project) (auth : Option ReqUser) (slug : String) :
    Except ApiError Bool :=
if jwtAuthGuardPasses projectsCheckSlugRoute auth then
  match auth with
  | some u => Except.ok (ProjectsService.checkSlug projects u.id slug)
  | none => Except.error (ApiError.unauthorized "Unauthorized")
else
  Except.error (ApiError.unauthorized "Unauthorized")

/-- Per-owner slug uniqueness of a post store: no two rows share the
`(slug, authorId)` pair. -/
def postsSlugOwnerUnique : List Post → Bool
| [] => true
| p :: t =>
    t.all (fun q => !(q.slug == p.slug && q.authorId == p.authorId)) &&
      postsSlugOwnerUnique t

/-- Per-owner slug uniqueness of a project store. -/
def projectsSlugOwnerUnique : List Project → Bool
| [] => true
| p :: t =>
    t.all (fun q => !(q.slug == p.slug && q.userId == p.userId)) &&
      projectsSlugOwnerUnique t

/-- Primary-key uniqueness of the role store. -/
def roleIdsUnique : List Role → Bool
| [] => true
| r :: t => t.all (fun q => q.id != r.id) && roleIdsUnique t

/-- Concrete fixtures mirroring the seed and test data. -/
def adminRole : Role := { id := 1, name := "ADMIN" }

def editorRole : Role := { id := 2, name := "EDITOR" }

def demoRoles : List Role := [adminRole, editorRole]

def demoAdmin : ReqUser := { id := 99, roles := [adminRole] }

def demoOwner : ReqUser := { id := 1, roles := [editorRole] }

def demoOther : ReqUser := { id := 7, roles := [editorRole] }

def demoUser : User :=
{ id := 1, firstName := "Test", username := "testuser",
  email := "test", hash := "digest", roleIds := [2] }

def demoAdminUser : User :=
{ id := 99, firstName := "Admin", username := "adminuser",
  email := "admin", hash := "digest2", roleIds := [1] }

def demoPost : Post :=
{ id := 1, title := "Test Post", slug := "test-post", content := "body",
  published := true, authorId := 1 }

def demoPost2 : Post :=
{ id := 5, title := "Second", slug := "test-post", content := "body2",
  published := false, authorId := 2 }

def demoProject : Project :=
{ id := 1, title := "Proj", slug := "proj-slug",
  techStack := some ["NestJS"], userId := 1 }

def demoProjectNoStack : Project :=
{ id := 5, title := "NoStack", slug := "no-stack",
  techStack := some [], userId := 1 }

def demoProject2 : Project :=
{ id := 9, title := "SecondP", slug := "proj-slug",
  techStack := some [], userId := 2 }

end NestBackend

namespace NestBackend

/-- C1: the spec claims no read path ever returns the password digest.
The code refutes this three times over: a plain `GET /users` runs
`findMany` with an empty `include` and no `omit`, so every scalar column
including `hash` is returned; the `field` whitelist of `GetUsersDto` is
`ALL_FIELDS`, which contains `hash`, so `?field=hash` selects the digest
explicitly; and `GET /projects?includeUser=true` nests the full owner row
(`include.user = true`, no `omit`).  Only the Posts relation path strips
the digest.  The repository e2e tests assert the digest is absent
from `GET /users` responses, so the code contradicts its own test suite. -/
theorem c1_password_digest_leaks :
    (usersGetScalarKeys none).contains "hash" = true ∧
    validUserFieldList ["hash"] = true ∧
    usersGetScalarKeys (some ["hash"]) = ["hash"] ∧
    projectsIncludedUserScalarKeys true = some userScalarFields ∧
    userScalarFields.contains "hash" = true ∧
    ((postsIncludedAuthorScalarKeys true).getD []).contains "hash" = false := by
  decide

/-- C2 counterexample: a principal holding ADMIN whose id differs from the
target account id successfully updates the account, where the claim
demands Forbidden.  `UsersService.updateById` admits admins explicitly
(`if (reqUser.id !== entity.id && !isUserAdmin)`). -/
theorem c2_admin_updates_foreign_account :
    demoAdmin.id ≠ demoUser.id ∧
    isUserAdmin demoAdmin = true ∧
    userFindUnique [demoUser] 1 = some demoUser ∧
    isOkE (UsersService.updateById [demoUser] demoAdmin 1
      { firstName := some "Updated" }) = true := by
  decide

/-- C3 counterexample: the owner of account 1, lacking the ADMIN role,
calls `DELETE /users/id/1` on an existing row and is rejected by the
`RolesGuard` with Forbidden, where the claim demands success for the
owner. -/
theorem c3_owner_cannot_delete_own_account :
    userFindUnique [demoUser] 1 = some demoUser ∧
    demoOwner.id = demoUser.id ∧
    isUserAdmin demoOwner = false ∧
    isForbiddenE (UsersController.deleteById [demoUser] demoRoles demoOwner 1) = true := by
  decide

/-- C5 counterexample: the slug-availability probes carry no public
marker, so the global JWT guard rejects an unauthenticated request with
401 instead of answering it, unlike the registration and login routes
which are genuinely public. -/
theorem c5_check_slug_routes_not_public :
    isUnauthorizedE (postsCheckSlugEndpoint [] none "valid-slug") = true ∧
    isUnauthorizedE (projectsCheckSlugEndpoint [] none "valid-slug") = true ∧
    postsCheckSlugRoute.isPublic = false ∧
    projectsCheckSlugRoute.isPublic = false ∧
    usersCreateRoute.isPublic = true ∧
    authLoginRoute.isPublic = true := by
  decide

/-- C2 (amended): update is strictly owner-only for Posts and Projects —
Forbidden for any other caller, whatever the roles, since the services
compare only the caller id with the owner column — while for Accounts
`updateById` succeeds exactly when the caller is the target account or
holds ADMIN. -/
theorem c2_update_policy (posts : List Post) (projects : List Project) (users : List User)
    (i callerId : Nat) (ru : ReqUser)
    (pp : UpdatePostDto) (jp : UpdateProjectDto) (up : UpdateUserDto)
    (post : Post) (proj : Project) (usr : User)
    (hpost : postFindUnique posts i = some post)
    (hproj : projectFindUnique projects i = some proj)
    (husr : userFindUnique users i = some usr) :
    (post.authorId ≠ callerId →
      isForbiddenE (PostsService.updateById posts i callerId pp) = true) ∧
    (proj.userId ≠ callerId →
      isForbiddenE (ProjectsService.updateById projects i callerId jp) = true) ∧
    (post.authorId = callerId → pp.slug = none →
      isOkE (PostsService.updateById posts i callerId pp) = true) ∧
    (proj.userId = callerId → jp.slug = none →
      isOkE (ProjectsService.updateById projects i callerId jp) = true) ∧
    (ru.id ≠ usr.id → isUserAdmin ru = false →
      isForbiddenE (UsersService.updateById users ru i up) = true) ∧
    (ru.id ≠ usr.id → isUserAdmin ru = true →
      isOkE (UsersService.updateById users ru i up) = true) ∧
    (ru.id = usr.id →
      isOkE (UsersService.updateById users ru i up) = true) := by
  refine ⟨?_, ?_, ?_, ?_, ?_, ?_, ?_⟩
  · intro h
    simp [PostsService.updateById, hpost, isForbiddenE, bne_iff_ne, h]
  · intro h
    simp [ProjectsService.updateById, hproj, isForbiddenE, bne_iff_ne, h]
  · intro h hs
    simp [PostsService.updateById, hpost, isOkE, bne_iff_ne, h,
      PostsService.slugConflict, hs]
  · intro h hs
    simp [ProjectsService.updateById, hproj, isOkE, bne_iff_ne, h,
      ProjectsService.slugConflict, hs]
  · intro h ha
    simp [UsersService.updateById, husr, isForbiddenE, bne_iff_ne, h, ha]
  · intro h ha
    simp [UsersService.updateById, husr, isOkE, bne_iff_ne, h, ha]
  · intro h
    simp [UsersService.updateById, husr, isOkE, bne_iff_ne, h]

/-- C2 witness: the hypotheses and the conclusion instantiated at the
singleton stores. -/
theorem c2_update_policy_witness :
    (postFindUnique [demoPost] 1 = some demoPost ∧
      projectFindUnique [demoProject] 1 = some demoProject ∧
      userFindUnique [demoUser] 1 = some demoUser) ∧
    ((demoPost.authorId ≠ 7 →
        isForbiddenE (PostsService.updateById [demoPost] 1 7 {}) = true) ∧
      (demoProject.userId ≠ 7 →
        isForbiddenE (ProjectsService.updateById [demoProject] 1 7 {}) = true) ∧
      (demoPost.authorId = 7 → UpdatePostDto.slug {} = none →
        isOkE (PostsService.updateById [demoPost] 1 7 {}) = true) ∧
      (demoProject.userId = 7 → UpdateProjectDto.slug {} = none →
        isOkE (ProjectsService.updateById [demoProject] 1 7 {}) = true) ∧
      (demoOther.id ≠ demoUser.id → isUserAdmin demoOther = false →
        isForbiddenE (UsersService.updateById [demoUser] demoOther 1 {}) = true) ∧
      (demoOther.id ≠ demoUser.id → isUserAdmin demoOther = true →
        isOkE (UsersService.updateById [demoUser] demoOther 1 {}) = true) ∧
      (demoOther.id = demoUser.id →
        isOkE (UsersService.updateById [demoUser] demoOther 1 {}) = true)) :=
  ⟨⟨by decide, by decide, by decide⟩,
    c2_update_policy [demoPost] [demoProject] [demoUser] 1 7 demoOther {} {} {}
      demoPost demoProject demoUser (by decide) (by decide) (by decide)⟩

/-- C3 (amended): for Posts and Projects, delete on an existing record
succeeds exactly when the caller owns the record or holds ADMIN, and
raises Forbidden otherwise; for Accounts, deletion is admin-only — the
route guard requires the ADMIN role and the service never compares the
caller with the target, so a non-admin owner is rejected and an admin may
delete any account. -/
theorem c3_delete_policy (posts : List Post) (projects : List Project)
    (users : List User) (roles : List Role) (i : Nat) (ru : ReqUser)
    (post : Post) (proj : Project) (usr : User)
    (hpost : postFindUnique posts i = some post)
    (hproj : projectFindUnique projects i = some proj)
    (husr : userFindUnique users i = some usr) :
    (post.authorId = ru.id ∨ isUserAdmin ru = true →
      isOkE (PostsService.deleteById posts i ru) = true) ∧
    (post.authorId ≠ ru.id → isUserAdmin ru = false →
      isForbiddenE (PostsService.deleteById posts i ru) = true) ∧
    (proj.userId = ru.id ∨ isUserAdmin ru = true →
      isOkE (ProjectsService.deleteById projects i ru) = true) ∧
    (proj.userId ≠ ru.id → isUserAdmin ru = false →
      isForbiddenE (ProjectsService.deleteById projects i ru) = true) ∧
    (rolesGuardAllows users roles ru.id ["ADMIN"] = false →
      isForbiddenE (UsersController.deleteById users roles ru i) = true) ∧
    (rolesGuardAllows users roles ru.id ["ADMIN"] = true →
      isOkE (UsersController.deleteById users roles ru i) = true) := by
  refine ⟨?_, ?_, ?_, ?_, ?_, ?_⟩
  · intro h
    rcases h with h | h
    · simp [PostsService.deleteById, hpost, isOkE, bne_iff_ne, h]
    · simp [PostsService.deleteById, hpost, isOkE, h]
  · intro h ha
    simp [PostsService.deleteById, hpost, isForbiddenE, bne_iff_ne, h, ha]
  · intro h
    rcases h with h | h
    · simp [ProjectsService.deleteById, hproj, isOkE, bne_iff_ne, h]
    · simp [ProjectsService.deleteById, hproj, isOkE, h]
  · intro h ha
    simp [ProjectsService.deleteById, hproj, isForbiddenE, bne_iff_ne, h, ha]
  · intro h
    simp [UsersController.deleteById, isForbiddenE, h]
  · intro h
    simp [UsersController.deleteById, UsersService.deleteById, husr, isOkE, h]

/-- C3 witness: the hypotheses and the conclusion instantiated at the
singleton stores with the non-owner caller. -/
theorem c3_delete_policy_witness :
    (postFindUnique [demoPost] 1 = some demoPost ∧
      projectFindUnique [demoProject] 1 = some demoProject ∧
      userFindUnique [demoUser] 1 = some demoUser) ∧
    ((demoPost.authorId = demoOther.id ∨ isUserAdmin demoOther = true →
        isOkE (PostsService.deleteById [demoPost] 1 demoOther) = true) ∧
      (demoPost.authorId ≠ demoOther.id → isUserAdmin demoOther = false →
        isForbiddenE (PostsService.deleteById [demoPost] 1 demoOther) = true) ∧
      (demoProject.userId = demoOther.id ∨ isUserAdmin demoOther = true →
        isOkE (ProjectsService.deleteById [demoProject] 1 demoOther) = true) ∧
      (demoProject.userId ≠ demoOther.id → isUserAdmin demoOther = false →
        isForbiddenE (ProjectsService.deleteById [demoProject] 1 demoOther) = true) ∧
      (rolesGuardAllows [demoUser] demoRoles demoOther.id ["ADMIN"] = false →
        isForbiddenE (UsersController.deleteById [demoUser] demoRoles demoOther 1) = true) ∧
      (rolesGuardAllows [demoUser] demoRoles demoOther.id ["ADMIN"] = true →
        isOkE (UsersController.deleteById [demoUser] demoRoles demoOther 1) = true)) :=
  ⟨⟨by decide, by decide, by decide⟩,
    c3_delete_policy [demoPost] [demoProject] [demoUser] demoRoles 1 demoOther
      demoPost demoProject demoUser (by decide) (by decide) (by decide)⟩

/-- Identical ids in a primary-key-unique role store force identical
rows. -/
theorem roleIdsUnique_inj {roles : List Role} (hu : roleIdsUnique roles = true)
    {r s : Role} (hr : r ∈ roles) (hs : s ∈ roles) (hid : r.id = s.id) : r = s := by
  induction roles with
  | nil => cases hr
  | cons a t ih =>
    unfold roleIdsUnique at hu
    rw [Bool.and_eq_true, List.all_eq_true] at hu
    rcases hu with ⟨hall, hrec⟩
    rcases List.mem_cons.mp hr with hr1 | hr1 <;>
      rcases List.mem_cons.mp hs with hs1 | hs1
    · rw [hr1, hs1]
    · exfalso
      have := hall s hs1
      rw [bne_iff_ne] at this
      exact this (hr1 ▸ hid.symm)
    · exfalso
      have := hall r hr1
      rw [bne_iff_ne] at this
      exact this (hs1 ▸ hid)
    · exact ih hrec hr1 hs1

/-- C4: deleting the role named ADMIN raises Forbidden for every caller —
in the current variant the method rejects before its delete call without
even receiving the principal, and in the earlier variant the disjunct
`entity.name === 'ADMIN'` rejects even an admin caller — so no successful
`deleteById` ever removes a role named ADMIN from the store (the store is
only written on the success path). -/
theorem c4_admin_role_undeletable (roles roles2 : List Role) (i j : Nat) (user : ReqUser)
    (entity r del : Role)
    (huniq : roleIdsUnique roles = true)
    (hfind : roleFindUnique roles i = some entity)
    (hname : entity.name = "ADMIN")
    (hdel : RolesService.deleteById roles j = Except.ok (roles2, del))
    (hr : r ∈ roles) (hrname : r.name = "ADMIN") :
    isForbiddenE (RolesService.deleteById roles i) = true ∧
    isForbiddenE (RolesService.deleteByIdWithUser roles i user) = true ∧
    r ∈ roles2 := by
  refine ⟨?_, ?_, ?_⟩
  · simp [RolesService.deleteById, hfind, isForbiddenE, hname]
  · simp [RolesService.deleteByIdWithUser, hfind, isForbiddenE, hname]
  · cases hj : roleFindUnique roles j with
    | none => simp [RolesService.deleteById, hj] at hdel
    | some e =>
      by_cases he : e.name = "ADMIN"
      · simp [RolesService.deleteById, hj, he] at hdel
      · have hne : (e.name == "ADMIN") = false := by
          simp [he]
        simp [RolesService.deleteById, hj, hne] at hdel
        have hroles2 : roles2 = roles.filter (fun x => x.id != j) := hdel.1.symm
        have hj2 : List.find? (fun x => x.id == j) roles = some e := hj
        have hemem : e ∈ roles := List.mem_of_find?_eq_some hj2
        have heid0 := List.find?_some hj2
        have heid : e.id = j := by simpa [beq_iff_eq] using heid0
        have hrid : r.id ≠ j := by
          intro hcontra
          have : r = e := roleIdsUnique_inj huniq hr hemem (by rw [hcontra, heid])
          exact he (this ▸ hrname)
        rw [hroles2]
        exact List.mem_filter.mpr ⟨hr, by simp [hrid]⟩

/-- C4 witness: a store holding the ADMIN role and an EDITOR role; the
EDITOR delete succeeds while every attempt on the ADMIN role is
Forbidden, and the successful delete keeps the ADMIN role in the store. -/
theorem c4_admin_role_undeletable_witness :
    (roleIdsUnique demoRoles = true ∧
      roleFindUnique demoRoles 1 = some adminRole ∧
      adminRole.name = "ADMIN" ∧
      RolesService.deleteById demoRoles 2 = Except.ok ([adminRole], editorRole) ∧
      adminRole ∈ demoRoles) ∧
    (isForbiddenE (RolesService.deleteById demoRoles 1) = true ∧
      isForbiddenE (RolesService.deleteByIdWithUser demoRoles 1 demoAdmin) = true ∧
      adminRole ∈ [adminRole]) :=
  ⟨⟨by decide, by decide, by decide, by rfl, by decide⟩,
    c4_admin_role_undeletable demoRoles [adminRole] 1 2 demoAdmin
      adminRole adminRole editorRole (by decide) (by decide) (by decide)
      (by rfl) (by decide) (by decide)⟩

/-- C5 (amended): the slug-availability probes require a valid bearer
token — an unauthenticated request is rejected 401 by the global guard —
and for an authenticated principal they return the availability boolean
scoped to that principal; registration and login remain the public
routes. -/
theorem c5_check_slug_requires_auth (posts : List Post) (projects : List Project)
    (u : ReqUser) (slug : String) :
    postsCheckSlugEndpoint posts none slug =
      Except.error (ApiError.unauthorized "Unauthorized") ∧
    postsCheckSlugEndpoint posts (some u) slug =
      Except.ok (PostsService.checkSlug posts u.id slug) ∧
    projectsCheckSlugEndpoint projects none slug =
      Except.error (ApiError.unauthorized "Unauthorized") ∧
    projectsCheckSlugEndpoint projects (some u) slug =
      Except.ok (ProjectsService.checkSlug projects u.id slug) ∧
    usersCreateRoute.isPublic = true ∧
    authLoginRoute.isPublic = true := by
  refine ⟨?_, ?_, ?_, ?_, rfl, rfl⟩ <;>
    simp [postsCheckSlugEndpoint, projectsCheckSlugEndpoint, jwtAuthGuardPasses,
      postsCheckSlugRoute, projectsCheckSlugRoute]

/-- The natural-number encoding of `Math.ceil(total / pageSize)` is the
least multiple bound: `total ≤ ceilDiv total ps * ps < total + ps`. -/
theorem ceilDiv_bounds (total ps : Nat) (h : 1 ≤ ps) :
    total ≤ ceilDiv total ps * ps ∧ ceilDiv total ps * ps < total + ps := by
  have hps : 0 < ps := h
  cases total with
  | zero =>
    constructor
    · exact Nat.zero_le _
    · have : ceilDiv 0 ps = 0 := by
        unfold ceilDiv
        exact Nat.div_eq_of_lt (by omega)
      rw [this]
      omega
  | succ t =>
    have hform : ceilDiv (t + 1) ps = t / ps + 1 := by
      unfold ceilDiv
      have : t + 1 + ps - 1 = t + ps := by omega
      rw [this]
      exact Nat.add_div_right t hps
    constructor
    · rw [hform]
      have hlt : t / ps < t / ps + 1 := Nat.lt_succ_self _
      have := (Nat.div_lt_iff_lt_mul hps).mp hlt
      omega
    · rw [hform]
      have := Nat.div_mul_le_self t ps
      calc (t / ps + 1) * ps = t / ps * ps + ps := by ring
        _ ≤ t + ps := by omega
        _ < t + 1 + ps := by omega

/-- C6: with `withPagination` set and validated `page ≥ 1`, `pageSize ≥ 1`,
the paginated result counts all rows matching the filter, returns the
slice that skips `(page-1)*pageSize` rows and takes `pageSize` rows, and
reports `pageCount = Math.ceil(total / pageSize)` — characterised by
`total ≤ pageCount*pageSize < total + pageSize`; while a request carrying
`page < 1` or `pageSize < 1` is rejected 400 by the validation boundary
before the service runs. -/
theorem c6_pagination (posts : List Post) (q : GetPostsDto) (raw : RawPagination)
    (_hpage : 1 ≤ q.page) (hsize : 1 ≤ q.pageSize) (hwp : q.withPagination = true)
    (hraw : (∃ p, raw.page = some p ∧ p < 1) ∨ (∃ s, raw.pageSize = some s ∧ s < 1)) :
    PostsService.get posts q = Sum.inr
      { total := (posts.filter (postsWhere q)).length,
        page := q.page, pageSize := q.pageSize,
        pageCount := ceilDiv (posts.filter (postsWhere q)).length q.pageSize,
        items := ((sortByLe (postSortLe q) (posts.filter (postsWhere q))).drop
          ((q.page - 1) * q.pageSize)).take q.pageSize } ∧
    (posts.filter (postsWhere q)).length ≤
      ceilDiv (posts.filter (postsWhere q)).length q.pageSize * q.pageSize ∧
    ceilDiv (posts.filter (postsWhere q)).length q.pageSize * q.pageSize <
      (posts.filter (postsWhere q)).length + q.pageSize ∧
    isBadRequestE (validatePagination raw) = true := by
  have hb := ceilDiv_bounds (posts.filter (postsWhere q)).length q.pageSize hsize
  refine ⟨?_, hb.1, hb.2, ?_⟩
  · simp [PostsService.get, hwp]
  · rcases hraw with ⟨p, hp, hlt⟩ | ⟨s, hs, hlt⟩
    · simp [validatePagination, validateMin1, hp, hlt, isBadRequestE,
        Bind.bind, Except.bind]
    · cases hpg : raw.page with
      | none =>
        simp [validatePagination, validateMin1, hpg, hs, hlt, isBadRequestE,
          Bind.bind, Except.bind]
      | some p =>
        by_cases hplt : p < 1
        · simp [validatePagination, validateMin1, hpg, hplt, isBadRequestE,
            Bind.bind, Except.bind]
        · simp [validatePagination, validateMin1, hpg, hplt, hs, hlt, isBadRequestE,
            Bind.bind, Except.bind]

/-- C6 witness: one stored post, a page-2 size-1 query, and the raw
query string `page=-1, pageSize=0`. -/
theorem c6_pagination_witness :
    (1 ≤ (2 : Nat) ∧ 1 ≤ (1 : Nat) ∧
      GetPostsDto.withPagination { withPagination := true, page := 2, pageSize := 1 } = true ∧
      ((∃ p, RawPagination.page { page := some (-1), pageSize := some 0 } = some p ∧ p < 1) ∨
        (∃ s, RawPagination.pageSize { page := some (-1), pageSize := some 0 } = some s ∧ s < 1))) ∧
    (PostsService.get [demoPost] { withPagination := true, page := 2, pageSize := 1 } = Sum.inr
      { total := ([demoPost].filter (postsWhere { withPagination := true, page := 2, pageSize := 1 })).length,
        page := 2, pageSize := 1,
        pageCount := ceilDiv ([demoPost].filter (postsWhere { withPagination := true, page := 2, pageSize := 1 })).length 1,
        items := ((sortByLe (postSortLe { withPagination := true, page := 2, pageSize := 1 })
          ([demoPost].filter (postsWhere { withPagination := true, page := 2, pageSize := 1 }))).drop
            ((2 - 1) * 1)).take 1 } ∧
      ([demoPost].filter (postsWhere { withPagination := true, page := 2, pageSize := 1 })).length ≤
        ceilDiv ([demoPost].filter (postsWhere { withPagination := true, page := 2, pageSize := 1 })).length 1 * 1 ∧
      ceilDiv ([demoPost].filter (postsWhere { withPagination := true, page := 2, pageSize := 1 })).length 1 * 1 <
        ([demoPost].filter (postsWhere { withPagination := true, page := 2, pageSize := 1 })).length + 1 ∧
      isBadRequestE (validatePagination { page := some (-1), pageSize := some 0 }) = true) :=
  ⟨⟨by decide, by decide, by rfl, Or.inl ⟨-1, rfl, by decide⟩⟩,
    c6_pagination [demoPost] { withPagination := true, page := 2, pageSize := 1 }
      { page := some (-1), pageSize := some 0 }
      (by decide) (by decide) (by rfl) (Or.inl ⟨-1, rfl, by decide⟩)⟩

/-- Appending a row whose `(slug, authorId)` pair is fresh preserves
per-owner slug uniqueness of a post store. -/
theorem postsSlugOwnerUnique_append (l : List Post) (x : Post)
    (hl : postsSlugOwnerUnique l = true)
    (hx : ∀ q ∈ l, ¬(q.slug = x.slug ∧ q.authorId = x.authorId)) :
    postsSlugOwnerUnique (l ++ [x]) = true := by
  induction l with
  | nil =>
    simp [postsSlugOwnerUnique]
  | cons p t ih =>
    have hx2 : ∀ q ∈ t, ¬(q.slug = x.slug ∧ q.authorId = x.authorId) :=
      fun q hq => hx q (List.mem_cons_of_mem p hq)
    have hxp := hx p (List.mem_cons_self p t)
    simp only [postsSlugOwnerUnique, Bool.and_eq_true, List.all_eq_true] at hl
    rcases hl with ⟨hall, hrec⟩
    have hrest := ih hrec hx2
    simp only [List.cons_append, postsSlugOwnerUnique, Bool.and_eq_true,
      List.all_eq_true]
    refine ⟨?_, hrest⟩
    intro q hq
    rcases List.mem_append.mp hq with hq1 | hq1
    · exact hall q hq1
    · have hqx : q = x := by simpa using hq1
      subst hqx
      by_cases hslug : q.slug = p.slug
      · by_cases hown : q.authorId = p.authorId
        · exact absurd ⟨hslug.symm, hown.symm⟩ hxp
        · simp [hown]
      · simp [hslug]

/-- Appending a row whose `(slug, userId)` pair is fresh preserves
per-owner slug uniqueness of a project store. -/
theorem projectsSlugOwnerUnique_append (l : List Project) (x : Project)
    (hl : projectsSlugOwnerUnique l = true)
    (hx : ∀ q ∈ l, ¬(q.slug = x.slug ∧ q.userId = x.userId)) :
    projectsSlugOwnerUnique (l ++ [x]) = true := by
  induction l with
  | nil =>
    simp [projectsSlugOwnerUnique]
  | cons p t ih =>
    have hx2 : ∀ q ∈ t, ¬(q.slug = x.slug ∧ q.userId = x.userId) :=
      fun q hq => hx q (List.mem_cons_of_mem p hq)
    have hxp := hx p (List.mem_cons_self p t)
    simp only [projectsSlugOwnerUnique, Bool.and_eq_true, List.all_eq_true] at hl
    rcases hl with ⟨hall, hrec⟩
    have hrest := ih hrec hx2
    simp only [List.cons_append, projectsSlugOwnerUnique, Bool.and_eq_true,
      List.all_eq_true]
    refine ⟨?_, hrest⟩
    intro q hq
    rcases List.mem_append.mp hq with hq1 | hq1
    · exact hall q hq1
    · have hqx : q = x := by simpa using hq1
      subst hqx
      by_cases hslug : q.slug = p.slug
      · by_cases hown : q.userId = p.userId
        · exact absurd ⟨hslug.symm, hown.symm⟩ hxp
        · simp [hown]
      · simp [hslug]

/-- C7: for Posts and Projects, `create` raises 400 when a record with
the same `(slug, ownerId)` pair exists (and inserts nothing, since the
method throws before its insert call); `create` with the same slug under
a different owner finds no conflict and succeeds; and every successful
create — for either resource — appends a row whose pair was checked
absent, preserving per-owner slug uniqueness of the store. -/
theorem c7_create_slug_owner_unique
    (posts posts2 : List Post) (projects projects2 : List Project)
    (newId now nid2 nid3 aid aid2 uid uid2 : Nat)
    (pp : CreatePostDto) (jp : CreateProjectDto) (created : Post) (jcreated : Project)
    (huniq : postsSlugOwnerUnique posts = true)
    (hconf : (postFindFirstBySlugAuthor posts pp.slug aid).isSome = true)
    (hfree : postFindFirstBySlugAuthor posts pp.slug aid2 = none)
    (hok : PostsService.create posts nid2 now aid2 pp = Except.ok (posts2, created))
    (hjuniq : projectsSlugOwnerUnique projects = true)
    (hjconf : (projectFindFirstBySlugUser projects jp.slug uid).isSome = true)
    (hjfree : projectFindFirstBySlugUser projects jp.slug uid2 = none)
    (hjok : ProjectsService.create projects nid3 now uid2 jp =
      Except.ok (projects2, jcreated)) :
    isBadRequestE (PostsService.create posts newId now aid pp) = true ∧
    isOkE (PostsService.create posts nid2 now aid2 pp) = true ∧
    isBadRequestE (ProjectsService.create projects newId now uid jp) = true ∧
    isOkE (ProjectsService.create projects nid3 now uid2 jp) = true ∧
    posts2 = posts ++ [created] ∧
    created.slug = pp.slug ∧
    created.authorId = aid2 ∧
    postsSlugOwnerUnique posts2 = true ∧
    projects2 = projects ++ [jcreated] ∧
    jcreated.slug = jp.slug ∧
    jcreated.userId = uid2 ∧
    projectsSlugOwnerUnique projects2 = true := by
  rcases Option.isSome_iff_exists.mp hconf with ⟨w, hw⟩
  rcases Option.isSome_iff_exists.mp hjconf with ⟨v, hv⟩
  have hokparts : posts2 = posts ++
      [{ id := nid2, title := pp.title, slug := pp.slug, content := pp.content,
         published := pp.published.getD false, authorId := aid2, createdAt := now }] ∧
      created =
        { id := nid2, title := pp.title, slug := pp.slug, content := pp.content,
          published := pp.published.getD false, authorId := aid2, createdAt := now } := by
    simp [PostsService.create, hfree] at hok
    exact ⟨hok.1.symm, hok.2.symm⟩
  have hjokparts : projects2 = projects ++
      [{ id := nid3, title := jp.title, slug := jp.slug, description := jp.description,
         repoUrl := jp.repoUrl, demoUrl := jp.demoUrl,
         techStack := some (jp.techStack.getD []),
         featured := jp.featured.getD false, userId := uid2, createdAt := now }] ∧
      jcreated =
        { id := nid3, title := jp.title, slug := jp.slug, description := jp.description,
          repoUrl := jp.repoUrl, demoUrl := jp.demoUrl,
          techStack := some (jp.techStack.getD []),
          featured := jp.featured.getD false, userId := uid2, createdAt := now } := by
    simp [ProjectsService.create, hjfree] at hjok
    exact ⟨hjok.1.symm, hjok.2.symm⟩
  refine ⟨?_, ?_, ?_, ?_, ?_, ?_, ?_, ?_, ?_, ?_, ?_, ?_⟩
  · simp [PostsService.create, hw, isBadRequestE]
  · simp [PostsService.create, hfree, isOkE]
  · simp [ProjectsService.create, hv, isBadRequestE]
  · simp [ProjectsService.create, hjfree, isOkE]
  · rw [hokparts.1, hokparts.2]
  · rw [hokparts.2]
  · rw [hokparts.2]
  · rw [hokparts.1]
    apply postsSlugOwnerUnique_append posts _ huniq
    intro q hq hcontra
    have hfree2 : List.find? (fun p => p.slug == pp.slug && p.authorId == aid2) posts = none :=
      hfree
    rw [List.find?_eq_none] at hfree2
    have := hfree2 q hq
    simp only [Bool.and_eq_true, beq_iff_eq] at this
    exact this ⟨by simpa using hcontra.1, by simpa using hcontra.2⟩
  · rw [hjokparts.1, hjokparts.2]
  · rw [hjokparts.2]
  · rw [hjokparts.2]
  · rw [hjokparts.1]
    apply projectsSlugOwnerUnique_append projects _ hjuniq
    intro q hq hcontra
    have hjfree2 : List.find? (fun p => p.slug == jp.slug && p.userId == uid2) projects = none :=
      hjfree
    rw [List.find?_eq_none] at hjfree2
    have := hjfree2 q hq
    simp only [Bool.and_eq_true, beq_iff_eq] at this
    exact this ⟨by simpa using hcontra.1, by simpa using hcontra.2⟩

/-- C7 witness: the post (resp. project) with `(slug, owner 1)` blocks a
second create by owner 1 but not by owner 2, and both appended stores
stay unique. -/
theorem c7_create_slug_owner_unique_witness :
    (postsSlugOwnerUnique [demoPost] = true ∧
      (postFindFirstBySlugAuthor [demoPost] "test-post" 1).isSome = true ∧
      postFindFirstBySlugAuthor [demoPost] "test-post" 2 = none ∧
      PostsService.create [demoPost] 5 0 2
          { title := "Second", slug := "test-post", content := "body2" } =
        Except.ok ([demoPost, demoPost2], demoPost2) ∧
      projectsSlugOwnerUnique [demoProject] = true ∧
      (projectFindFirstBySlugUser [demoProject] "proj-slug" 1).isSome = true ∧
      projectFindFirstBySlugUser [demoProject] "proj-slug" 2 = none ∧
      ProjectsService.create [demoProject] 9 0 2
          { title := "SecondP", slug := "proj-slug" } =
        Except.ok ([demoProject, demoProject2], demoProject2)) ∧
    (isBadRequestE (PostsService.create [demoPost] 11 0 1
        { title := "Second", slug := "test-post", content := "body2" }) = true ∧
      isOkE (PostsService.create [demoPost] 5 0 2
        { title := "Second", slug := "test-post", content := "body2" }) = true ∧
      isBadRequestE (ProjectsService.create [demoProject] 11 0 1
        { title := "SecondP", slug := "proj-slug" }) = true ∧
      isOkE (ProjectsService.create [demoProject] 9 0 2
        { title := "SecondP", slug := "proj-slug" }) = true ∧
      [demoPost, demoPost2] = [demoPost] ++ [demoPost2] ∧
      demoPost2.slug = "test-post" ∧
      demoPost2.authorId = 2 ∧
      postsSlugOwnerUnique [demoPost, demoPost2] = true ∧
      [demoProject, demoProject2] = [demoProject] ++ [demoProject2] ∧
      demoProject2.slug = "proj-slug" ∧
      demoProject2.userId = 2 ∧
      projectsSlugOwnerUnique [demoProject, demoProject2] = true) :=
  ⟨⟨by decide, by decide, by rfl, by rfl, by decide, by decide, by rfl, by rfl⟩,
    c7_create_slug_owner_unique [demoPost] [demoPost, demoPost2]
      [demoProject] [demoProject, demoProject2] 11 0 5 9 1 2 1 2
      { title := "Second", slug := "test-post", content := "body2" }
      { title := "SecondP", slug := "proj-slug" }
      demoPost2 demoProject2
      (by decide) (by decide) (by rfl) (by rfl)
      (by decide) (by decide) (by rfl) (by rfl)⟩

/-- C8: every `updateById` and `deleteById` whose target row is absent
raises NotFound, whatever the caller identity and roles: the services
fetch the row first and throw 404 before any ownership or role
comparison, so NotFound takes precedence over Forbidden. -/
theorem c8_notfound_before_policy (posts : List Post) (projects : List Project)
    (users : List User) (roles : List Role) (i callerId : Nat) (ru : ReqUser)
    (pp : UpdatePostDto) (jp : UpdateProjectDto) (up : UpdateUserDto)
    (hpost : postFindUnique posts i = none)
    (hproj : projectFindUnique projects i = none)
    (husr : userFindUnique users i = none)
    (hrole : roleFindUnique roles i = none) :
    isNotFoundE (PostsService.updateById posts i callerId pp) = true ∧
    isNotFoundE (PostsService.deleteById posts i ru) = true ∧
    isNotFoundE (ProjectsService.updateById projects i callerId jp) = true ∧
    isNotFoundE (ProjectsService.deleteById projects i ru) = true ∧
    isNotFoundE (UsersService.updateById users ru i up) = true ∧
    isNotFoundE (UsersService.deleteById users i) = true ∧
    isNotFoundE (RolesService.deleteById roles i) = true ∧
    isNotFoundE (RolesService.deleteByIdWithUser roles i ru) = true := by
  refine ⟨?_, ?_, ?_, ?_, ?_, ?_, ?_, ?_⟩ <;>
    simp [PostsService.updateById, PostsService.deleteById,
      ProjectsService.updateById, ProjectsService.deleteById,
      UsersService.updateById, UsersService.deleteById,
      RolesService.deleteById, RolesService.deleteByIdWithUser,
      hpost, hproj, husr, hrole, isNotFoundE]

/-- C8 witness: empty stores and target id 1 with a non-admin caller. -/
theorem c8_notfound_before_policy_witness :
    (postFindUnique [] 1 = none ∧ projectFindUnique [] 1 = none ∧
      userFindUnique [] 1 = none ∧ roleFindUnique [] 1 = none) ∧
    (isNotFoundE (PostsService.updateById [] 1 7 {}) = true ∧
      isNotFoundE (PostsService.deleteById [] 1 demoOther) = true ∧
      isNotFoundE (ProjectsService.updateById [] 1 7 {}) = true ∧
      isNotFoundE (ProjectsService.deleteById [] 1 demoOther) = true ∧
      isNotFoundE (UsersService.updateById [] demoOther 1 {}) = true ∧
      isNotFoundE (UsersService.deleteById [] 1) = true ∧
      isNotFoundE (RolesService.deleteById [] 1) = true ∧
      isNotFoundE (RolesService.deleteByIdWithUser [] 1 demoOther) = true) :=
  ⟨⟨rfl, rfl, rfl, rfl⟩,
    c8_notfound_before_policy [] [] [] [] 1 7 demoOther {} {} {}
      rfl rfl rfl rfl⟩

/-- C9: `assignRole` raises 404 when the referenced user or role is
missing and 400 when the user already holds the role; `removeRole` raises
404 in the same missing cases and 400 when the user does not hold the
role.  All four failures throw before the update call, so the store is
untouched; on success the target user gains or loses exactly the one
role, and every other user row is unchanged. -/
theorem c9_role_assignment (users users2 : List User) (roles roles2 : List Role)
    (d : UserRoleDto) (u : User) (r : Role)
    (hu : userFindUnique users d.userId = some u)
    (hr : roleFindUnique roles d.roleId = some r)
    (hu2 : userFindUnique users2 d.userId = none)
    (hr2 : roleFindUnique roles2 d.roleId = none) :
    isNotFoundE (UsersService.assignRole users2 roles d) = true ∧
    isNotFoundE (UsersService.assignRole users roles2 d) = true ∧
    isNotFoundE (UsersService.removeRole users2 roles d) = true ∧
    isNotFoundE (UsersService.removeRole users roles2 d) = true ∧
    (u.roleIds.contains d.roleId = true →
      isBadRequestE (UsersService.assignRole users roles d) = true) ∧
    (u.roleIds.contains d.roleId = false →
      isBadRequestE (UsersService.removeRole users roles d) = true) ∧
    (u.roleIds.contains d.roleId = false →
      UsersService.assignRole users roles d = Except.ok (users.map (fun x =>
        if x.id == d.userId then { x with roleIds := x.roleIds ++ [d.roleId] } else x))) ∧
    (u.roleIds.contains d.roleId = true →
      UsersService.removeRole users roles d = Except.ok (users.map (fun x =>
        if x.id == d.userId then
          { x with roleIds := x.roleIds.filter (fun j => j != d.roleId) }
        else x))) := by
  refine ⟨?_, ?_, ?_, ?_, ?_, ?_, ?_, ?_⟩
  · simp [UsersService.assignRole, hu2, isNotFoundE]
  · simp [UsersService.assignRole, hu, hr2, isNotFoundE]
  · simp [UsersService.removeRole, hu2, isNotFoundE]
  · simp [UsersService.removeRole, hu, hr2, isNotFoundE]
  · intro h
    have h2 : d.roleId ∈ u.roleIds := by simpa using h
    simp [UsersService.assignRole, hu, hr, h2, isBadRequestE]
  · intro h
    have h2 : d.roleId ∉ u.roleIds := by simpa using h
    simp [UsersService.removeRole, hu, hr, h2, isBadRequestE]
  · intro h
    have h2 : d.roleId ∉ u.roleIds := by simpa using h
    simp [UsersService.assignRole, hu, hr, h2]
  · intro h
    have h2 : d.roleId ∈ u.roleIds := by simpa using h
    simp [UsersService.removeRole, hu, hr, h2]

/-- C9 witness: the EDITOR holder together with the ADMIN and EDITOR role
rows; the missing cases use empty stores. -/
theorem c9_role_assignment_witness :
    (userFindUnique [demoUser] 1 = some demoUser ∧
      roleFindUnique demoRoles 1 = some adminRole ∧
      userFindUnique [] 1 = none ∧
      roleFindUnique [] 1 = none) ∧
    (isNotFoundE (UsersService.assignRole [] demoRoles { userId := 1, roleId := 1 }) = true ∧
      isNotFoundE (UsersService.assignRole [demoUser] [] { userId := 1, roleId := 1 }) = true ∧
      isNotFoundE (UsersService.removeRole [] demoRoles { userId := 1, roleId := 1 }) = true ∧
      isNotFoundE (UsersService.removeRole [demoUser] [] { userId := 1, roleId := 1 }) = true ∧
      (demoUser.roleIds.contains 1 = true →
        isBadRequestE (UsersService.assignRole [demoUser] demoRoles
          { userId := 1, roleId := 1 }) = true) ∧
      (demoUser.roleIds.contains 1 = false →
        isBadRequestE (UsersService.removeRole [demoUser] demoRoles
          { userId := 1, roleId := 1 }) = true) ∧
      (demoUser.roleIds.contains 1 = false →
        UsersService.assignRole [demoUser] demoRoles { userId := 1, roleId := 1 } =
          Except.ok ([demoUser].map (fun x =>
            if x.id == 1 then { x with roleIds := x.roleIds ++ [1] } else x))) ∧
      (demoUser.roleIds.contains 1 = true →
        UsersService.removeRole [demoUser] demoRoles { userId := 1, roleId := 1 } =
          Except.ok ([demoUser].map (fun x =>
            if x.id == 1 then
              { x with roleIds := x.roleIds.filter (fun j => j != 1) }
            else x)))) :=
  ⟨⟨by decide, by decide, rfl, rfl⟩,
    c9_role_assignment [demoUser] [] demoRoles [] { userId := 1, roleId := 1 }
      demoUser adminRole (by decide) (by decide) rfl rfl⟩

/-- C10: a created Project stores `techStack ?? []`, so the column is the
empty array when the payload omits it and never null; `updateById` keeps
the stored value when the payload omits `techStack` (given the stored
value is non-null, which creates and updates guarantee), keeps the slug
when the payload omits it, and leaves every other omitted field
unchanged. -/
theorem c10_techstack_never_null
    (projects projects2 : List Project) (newId now uid i : Nat)
    (cp : CreateProjectDto) (up upAny : UpdateProjectDto)
    (created entity : Project)
    (hok : ProjectsService.create projects newId now uid cp = Except.ok (projects2, created))
    (hfind : projectFindUnique projects i = some entity)
    (howner : entity.userId = uid)
    (hts : up.techStack = none) (hslug : up.slug = none) :
    created.techStack = some (cp.techStack.getD []) ∧
    (cp.techStack = none → created.techStack = some []) ∧
    (ProjectsService.applyUpdate entity upAny).techStack ≠ none ∧
    ProjectsService.updateById projects i uid up =
      Except.ok (ProjectsService.replaceProject projects
        (ProjectsService.applyUpdate entity up),
        ProjectsService.applyUpdate entity up) ∧
    (entity.techStack ≠ none →
      (ProjectsService.applyUpdate entity up).techStack = entity.techStack) ∧
    (ProjectsService.applyUpdate entity up).slug = entity.slug ∧
    (up.title = none → (ProjectsService.applyUpdate entity up).title = entity.title) ∧
    (up.featured = none → (ProjectsService.applyUpdate entity up).featured = entity.featured) := by
  have hcreated : created.techStack = some (cp.techStack.getD []) := by
    cases hfound : projectFindFirstBySlugUser projects cp.slug uid with
    | some w => simp [ProjectsService.create, hfound] at hok
    | none =>
      simp [ProjectsService.create, hfound] at hok
      rw [← hok.2]
  refine ⟨hcreated, ?_, ?_, ?_, ?_, ?_, ?_, ?_⟩
  · intro h
    rw [hcreated, h]
    rfl
  · simp [ProjectsService.applyUpdate]
  · simp [ProjectsService.updateById, hfind, howner, ProjectsService.slugConflict, hslug]
  · intro h
    cases hets : entity.techStack with
    | none => exact absurd hets h
    | some ts => simp [ProjectsService.applyUpdate, hts, hets]
  · simp [ProjectsService.applyUpdate, hslug]
  · intro h
    simp [ProjectsService.applyUpdate, h]
  · intro h
    simp [ProjectsService.applyUpdate, h]

/-- C10 witness: a create that omits `techStack` and an update payload
that omits every field, applied to the stored demo project. -/
theorem c10_techstack_never_null_witness :
    (ProjectsService.create [demoProject] 5 0 1 { title := "NoStack", slug := "no-stack" } =
        Except.ok ([demoProject, demoProjectNoStack], demoProjectNoStack) ∧
      projectFindUnique [demoProject] 1 = some demoProject ∧
      demoProject.userId = 1 ∧
      UpdateProjectDto.techStack {} = none ∧
      UpdateProjectDto.slug {} = none) ∧
    (demoProjectNoStack.techStack =
        some (Option.getD (CreateProjectDto.techStack
          { title := "NoStack", slug := "no-stack" }) []) ∧
      (CreateProjectDto.techStack { title := "NoStack", slug := "no-stack" } = none →
        demoProjectNoStack.techStack = some []) ∧
      (ProjectsService.applyUpdate demoProject {}).techStack ≠ none ∧
      ProjectsService.updateById [demoProject] 1 1 {} =
        Except.ok (ProjectsService.replaceProject [demoProject]
          (ProjectsService.applyUpdate demoProject {}),
          ProjectsService.applyUpdate demoProject {}) ∧
      (demoProject.techStack ≠ none →
        (ProjectsService.applyUpdate demoProject {}).techStack = demoProject.techStack) ∧
      (ProjectsService.applyUpdate demoProject {}).slug = demoProject.slug ∧
      (UpdateProjectDto.title {} = none →
        (ProjectsService.applyUpdate demoProject {}).title = demoProject.title) ∧
      (UpdateProjectDto.featured {} = none →
        (ProjectsService.applyUpdate demoProject {}).featured = demoProject.featured)) :=
  ⟨⟨by rfl, by decide, rfl, rfl, rfl⟩,
    c10_techstack_never_null [demoProject] [demoProject, demoProjectNoStack]
      5 0 1 1 { title := "NoStack", slug := "no-stack" } {} {}
      demoProjectNoStack demoProject
      (by rfl) (by decide) rfl rfl rfl⟩

end NestBackend
